import Mathlib

/-!
Verification development for the XRFeitoria Unreal plugins
(XRFeitoriaUnreal / XRFeitoriaGear blueprint function libraries).

The C++ sources are shallowly embedded: vectors are rational triples,
Unreal `float` arithmetic is modelled over `ℚ`, the engine's ray-cast /
box-sweep primitives are modelled as oracle functions supplied by an
environment record, and `TArray&` out-parameters become explicit inputs
and outputs.  Division of floats is modelled by `ratDiv`, which returns
`none` exactly when the denominator is zero (the case where IEEE float
division of the count expressions produces NaN).
-/

namespace XRFeitoria

/-- A 3-component vector (models Unreal `FVector`, with exact rationals in
place of floating point components). -/
structure Vec3 where
  x : ℚ
  y : ℚ
  z : ℚ
deriving DecidableEq, Repr

namespace Vec3

def add (a b : Vec3) : Vec3 := ⟨a.x + b.x, a.y + b.y, a.z + b.z⟩

def sub (a b : Vec3) : Vec3 := ⟨a.x - b.x, a.y - b.y, a.z - b.z⟩

/-- Scalar division of a vector, `FVector / 3.0` in the sources. -/
def divScalar (a : Vec3) (s : ℚ) : Vec3 := ⟨a.x / s, a.y / s, a.z / s⟩

/-- `FVector::DotProduct`. -/
def dot (a b : Vec3) : ℚ := a.x * b.x + a.y * b.y + a.z * b.z

/-- `FVector::CrossProduct`. -/
def cross (a b : Vec3) : Vec3 :=
  ⟨a.y * b.z - a.z * b.y, a.z * b.x - a.x * b.z, a.x * b.y - a.y * b.x⟩

/-- Squared euclidean distance between two points. -/
def sqDist (a b : Vec3) : ℚ :=
  (a.x - b.x) * (a.x - b.x) + (a.y - b.y) * (a.y - b.y) + (a.z - b.z) * (a.z - b.z)

/-- The comparison `FVector::Dist(a, b) < t`.  `FVector::Dist` is the
euclidean distance `sqrt (sqDist a b)`; square roots do not exist in `ℚ`,
so the strict comparison with `t` is encoded by the equivalent condition
`0 < t ∧ sqDist a b < t * t` (for `t ≤ 0` the comparison is always false
since a distance is nonnegative). -/
def distLt (a b : Vec3) (t : ℚ) : Bool :=
  decide (0 < t) && decide (sqDist a b < t * t)

end Vec3

/-- A 3×3 matrix given by rows; models a rotation (`FRotator`/`FQuat`)
acting on vectors, and the signed-permutation matrices of the axis
conversion utility. -/
structure Mat3 where
  r0 : Vec3
  r1 : Vec3
  r2 : Vec3
deriving DecidableEq, Repr

namespace Mat3

/-- Apply the matrix to a column vector (`RotateVector` /
`TransformVector`). -/
def mulVec (m : Mat3) (v : Vec3) : Vec3 :=
  ⟨m.r0.dot v, m.r1.dot v, m.r2.dot v⟩

def transpose (m : Mat3) : Mat3 :=
  ⟨⟨m.r0.x, m.r1.x, m.r2.x⟩, ⟨m.r0.y, m.r1.y, m.r2.y⟩, ⟨m.r0.z, m.r1.z, m.r2.z⟩⟩

/-- Matrix product. -/
def mul (m n : Mat3) : Mat3 :=
  let nt := n.transpose
  ⟨⟨m.r0.dot nt.r0, m.r0.dot nt.r1, m.r0.dot nt.r2⟩,
   ⟨m.r1.dot nt.r0, m.r1.dot nt.r1, m.r1.dot nt.r2⟩,
   ⟨m.r2.dot nt.r0, m.r2.dot nt.r1, m.r2.dot nt.r2⟩⟩

def identity : Mat3 := ⟨⟨1, 0, 0⟩, ⟨0, 1, 0⟩, ⟨0, 0, 1⟩⟩

end Mat3

/-- `enum class EOcclusion : uint8` from `XF_BlueprintFunctionLibrary.h`. -/
inductive EOcclusion where
  | NonOcclusion
  | SelfOcclusion
  | InterOcclusion
deriving DecidableEq, Repr

/-- The part of an `FHitResult` read by the occlusion functions: the hit
actor's name (`GetActor()->GetFName()`), the hit location (`Location`)
and the trace end point (`TraceEnd`). -/
structure HitResult where
  actorName : String
  location : Vec3
  traceEnd : Vec3
deriving DecidableEq, Repr

/-- Placeholder `FHitResult` used when a line trace reports no hit; its
fields are never read on that path (`GetOcclusionFromHitResult` only
dereferences the hit result when `bIsHit` is true). -/
def defaultHitResult : HitResult := ⟨"", ⟨0, 0, 0⟩, ⟨0, 0, 0⟩⟩

/-- `UXF_BlueprintFunctionLibrary::GetOcclusionFromHitResult`
(`XF_BlueprintFunctionLibrary.cpp`).  The C++ initialises the result to
`NonOcclusion`, then (when `bIsHit`) overwrites it with `SelfOcclusion`
when the hit actor is the owner and `Dist(TraceEnd, Location) <
MeshThickness`, and with `InterOcclusion` when the hit actor differs from
the owner; the two assignments run in sequence, the later one winning. -/
def GetOcclusionFromHitResult (hitResult : HitResult) (meshName : String)
    (meshThickness : Int) (bIsHit : Bool) : EOcclusion :=
  let occlusion := EOcclusion.NonOcclusion
  if bIsHit then
    let hitActorName := hitResult.actorName
    let hitPosition := hitResult.location
    let traceEndPosition := hitResult.traceEnd
    let occlusion :=
      if hitActorName = meshName
          && Vec3.distLt traceEndPosition hitPosition (meshThickness : ℚ) then
        EOcclusion.SelfOcclusion
      else occlusion
    let occlusion :=
      if hitActorName ≠ meshName then EOcclusion.InterOcclusion else occlusion
    occlusion
  else occlusion

/-- Scene oracle for the occlusion functions: `LineTraceSingle` from a
camera location to a vertex returns `some hit` exactly when the engine
trace reports a blocking hit, `none` otherwise. -/
structure OcclusionEnv where
  lineTrace : Vec3 → Vec3 → Option HitResult

/-- One iteration of the vertex loop of `DetectInterOcclusionVertices`:
line-trace from the camera to the vertex and classify the hit.  The
literal `5` mirrors the hardcoded constant passed to
`GetOcclusionFromHitResult` in the C++ loop body (the function's
`MeshThickness` parameter is not forwarded). -/
def classifyVertex (env : OcclusionEnv) (cameraLocation : Vec3)
    (meshName : String) (vertex : Vec3) : EOcclusion :=
  match env.lineTrace cameraLocation vertex with
  | some hitResult => GetOcclusionFromHitResult hitResult meshName 5 true
  | none => GetOcclusionFromHitResult defaultHitResult meshName 5 false

/-- Float division `(float)a / (float)b` of the two nonnegative count
expressions: returns `none` when the denominator is zero (IEEE `0/0`,
i.e. NaN, since the numerator count is then also zero), otherwise the
exact quotient. -/
def ratDiv (a b : ℚ) : Option ℚ := if b = 0 then none else some (a / b)

def countLabel (l : EOcclusion) (occ : List EOcclusion) : Nat :=
  occ.countP (fun o => o = l)

/-- `UXF_BlueprintFunctionLibrary::DetectInterOcclusionVertices`
(`XF_BlueprintFunctionLibrary.cpp`).  Inputs: the vertex list, the camera
location (from the camera actor), the owner mesh name, the incoming
contents of the `VerticesOcclusion` out-array and the `MeshThickness`
parameter.  Output: the final contents of `VerticesOcclusion` and the
three rate out-floats.  The loop appends one label per vertex to
`VerticesOcclusion` (never clearing it), then the counting loop walks the
whole array and each rate divides by `VerticesOcclusion.Num()`. -/
def DetectInterOcclusionVertices (env : OcclusionEnv) (vertices : List Vec3)
    (cameraLocation : Vec3) (meshName : String)
    (verticesOcclusion : List EOcclusion) (meshThickness : ℚ) :
    List EOcclusion × (Option ℚ × Option ℚ × Option ℚ) :=
  let _ := meshThickness
  let outOcclusion := vertices.foldl
    (fun acc vertex => acc ++ [classifyVertex env cameraLocation meshName vertex])
    verticesOcclusion
  let nonOcclusionCount := countLabel EOcclusion.NonOcclusion outOcclusion
  let selfOcclusionCount := countLabel EOcclusion.SelfOcclusion outOcclusion
  let interOcclusionCount := countLabel EOcclusion.InterOcclusion outOcclusion
  let total : ℚ := outOcclusion.length
  (outOcclusion,
    (ratDiv (nonOcclusionCount : ℚ) total,
     ratDiv (selfOcclusionCount : ℚ) total,
     ratDiv (interOcclusionCount : ℚ) total))

/-! ## Skeletal mesh vertex extraction and facing-triangle centers -/

/-- One entry of `GetSkeletalMeshRenderData()->LODRenderData`: the
component-space skinned vertex positions produced by
`ComputeSkinnedPositions` for this LOD, and the triangle index buffer
from its `MultiSizeIndexContainer`. -/
structure LodRenderData where
  skinnedVertices : List Vec3
  indexBuffer : List Nat

/-- The part of a `USkeletalMeshComponent` read by the vertex-location
functions: the `IsValidLowLevel` flag, the component-to-world transform
(`GetComponentTransform().TransformPosition`) and the LOD render data
array. -/
structure SkeletalMeshComponent where
  isValidLowLevel : Bool
  componentToWorld : Vec3 → Vec3
  lodRenderData : List LodRenderData

/-- Failure modes of `GetSkeletalMeshVertexLocationsByLODIndex`: null
component, `IsValidLowLevel` false, the explicit `LODIndex > LODTotal`
guard, and out-of-bounds access to `LODRenderData[LODIndex]` (undefined
behaviour in the C++, reached when the guard admits `LODIndex = LODTotal`
or a negative index). -/
inductive VertexFail where
  | nullComp
  | invalidLowLevel
  | lodOutOfRange
  | missingLodData
deriving DecidableEq, Repr

/-- Indexing a list with a C++ `int32` index. -/
def intGet (l : List LodRenderData) (i : Int) : Option LodRenderData :=
  if 0 ≤ i then l.get? i.toNat else none

/-- `UXF_BlueprintFunctionLibrary::GetSkeletalMeshVertexLocationsByLODIndex`
(`XF_BlueprintFunctionLibrary.cpp`; the UE4 and UE5 variants differ only
in float width).  `VertexPositions.Empty()` runs first, then the null /
`IsValidLowLevel` checks, then the guard `if (LODIndex > LODTotal) return
false`, then the skinned positions of `LODRenderData[LODIndex]` are
transformed to world space. -/
def GetSkeletalMeshVertexLocationsByLODIndex
    (comp : Option SkeletalMeshComponent) (lodIndex : Int) :
    Except VertexFail (List Vec3) :=
  match comp with
  | none => .error .nullComp
  | some c =>
    if !c.isValidLowLevel then .error .invalidLowLevel
    else
      let lodTotal : Int := c.lodRenderData.length
      if lodIndex > lodTotal then .error .lodOutOfRange
      else
        match intGet c.lodRenderData lodIndex with
        | none => .error .missingLodData
        | some lodData => .ok (lodData.skinnedVertices.map c.componentToWorld)

/-- Contents of the `VertexPositions` out-array after the call: emptied
at entry and only populated on the success path, so every failure leaves
it empty. -/
def vertexPositionsOut (r : Except VertexFail (List Vec3)) : List Vec3 :=
  match r with
  | .ok vs => vs
  | .error _ => []

/-- The triangle loop of `GetSkeletalMeshValidFaceCentersByLODIndex`,
shared by the XRFeitoriaGear and XRFeitoriaUnreal versions, which differ
only in the sign of the dot-product test: `useGreater = true` models the
Gear version's `if (check > 0)`, `useGreater = false` the Unreal
version's `if (check < 0)`.  The C++ loop `for (i = 0; i < Num - 2;
i += 3)` consumes the index buffer three entries at a time, dropping a
trailing partial triangle. -/
def faceCentersLoop (useGreater : Bool) (actorRotator : Mat3)
    (cameraForward : Vec3) (vertices : List Vec3) : List Nat → List Vec3
  | a :: b :: c :: rest =>
    let p1 := vertices.getD a ⟨0, 0, 0⟩
    let p2 := vertices.getD b ⟨0, 0, 0⟩
    let p3 := vertices.getD c ⟨0, 0, 0⟩
    let center := ((p1.add p2).add p3).divScalar 3
    let e1 := p2.sub p1
    let e2 := p1.sub p3
    let normal := actorRotator.mulVec (Vec3.cross e2 e1)
    let check := Vec3.dot cameraForward normal
    let keep := if useGreater then decide (0 < check) else decide (check < 0)
    (if keep then [center] else [])
      ++ faceCentersLoop useGreater actorRotator cameraForward vertices rest
  | _ => []

/-- Common body of the two `GetSkeletalMeshValidFaceCentersByLODIndex`
versions: fetch the world-space skinned vertices, fetch the LOD's index
buffer, run the triangle loop. -/
def GetSkeletalMeshValidFaceCentersByLODIndex (useGreater : Bool)
    (actorRotator : Mat3) (cameraForward : Vec3)
    (comp : Option SkeletalMeshComponent) (lodIndex : Int) :
    Except VertexFail (List Vec3) :=
  match GetSkeletalMeshVertexLocationsByLODIndex comp lodIndex with
  | .error e => .error e
  | .ok vertices =>
    match comp with
    | none => .error .nullComp
    | some c =>
      match intGet c.lodRenderData lodIndex with
      | none => .error .missingLodData
      | some lodData =>
        .ok (faceCentersLoop useGreater actorRotator cameraForward vertices
          lodData.indexBuffer)

/-- `USF_BlueprintFunctionLibrary::GetSkeletalMeshValidFaceCentersByLODIndex`
(`SF_BlueprintFunctionLibrary.cpp`), whose culling test is
`if (check > 0)`. -/
def SF_GetSkeletalMeshValidFaceCentersByLODIndex (actorRotator : Mat3)
    (cameraForward : Vec3) (comp : Option SkeletalMeshComponent)
    (lodIndex : Int) : Except VertexFail (List Vec3) :=
  GetSkeletalMeshValidFaceCentersByLODIndex true actorRotator cameraForward
    comp lodIndex

/-- `UXF_BlueprintFunctionLibrary::GetSkeletalMeshValidFaceCentersByLODIndex`
(`XF_BlueprintFunctionLibrary.cpp`), whose culling test is
`if (check < 0)`. -/
def XF_GetSkeletalMeshValidFaceCentersByLODIndex (actorRotator : Mat3)
    (cameraForward : Vec3) (comp : Option SkeletalMeshComponent)
    (lodIndex : Int) : Except VertexFail (List Vec3) :=
  GetSkeletalMeshValidFaceCentersByLODIndex false actorRotator cameraForward
    comp lodIndex

/-- Consecutive index triples `[i, i+1, i+2]`, `i` stepping by 3, of an
index buffer (specification-side view of the triangle loop). -/
def chunk3 : List Nat → List (Nat × Nat × Nat)
  | a :: b :: c :: rest => (a, b, c) :: chunk3 rest
  | _ => []

/-- Center of an index triple: mean of its three vertices. -/
def triCenter (vertices : List Vec3) (t : Nat × Nat × Nat) : Vec3 :=
  let p1 := vertices.getD t.1 ⟨0, 0, 0⟩
  let p2 := vertices.getD t.2.1 ⟨0, 0, 0⟩
  let p3 := vertices.getD t.2.2 ⟨0, 0, 0⟩
  ((p1.add p2).add p3).divScalar 3

/-- Dot product of the camera forward vector with the world-space normal
of an index triple, the normal being the actor's world rotation applied
to `cross(p1 - p3, p2 - p1)`. -/
def triCheck (actorRotator : Mat3) (cameraForward : Vec3)
    (vertices : List Vec3) (t : Nat × Nat × Nat) : ℚ :=
  let p1 := vertices.getD t.1 ⟨0, 0, 0⟩
  let p2 := vertices.getD t.2.1 ⟨0, 0, 0⟩
  let p3 := vertices.getD t.2.2 ⟨0, 0, 0⟩
  Vec3.dot cameraForward (actorRotator.mulVec (Vec3.cross (p1.sub p3) (p2.sub p1)))

/-! ## Coordinate conversion utility -/

/-- `UXF_BlueprintFunctionLibrary::EAxis`
(`XF_BlueprintFunctionLibrary.h`): any cartesian axis in positive or
negative direction. -/
inductive EAxis where
  | X
  | Y
  | Z
  | Xn
  | Yn
  | Zn
deriving DecidableEq, Repr

/-- `UXF_BlueprintFunctionLibrary::UnitVectorFromAxisEnum`, reading the
`UnitVectors` table of `XF_BlueprintFunctionLibrary.h`. -/
def UnitVectorFromAxisEnum : EAxis → Vec3
  | .X => ⟨1, 0, 0⟩
  | .Y => ⟨0, 1, 0⟩
  | .Z => ⟨0, 0, 1⟩
  | .Xn => ⟨-1, 0, 0⟩
  | .Yn => ⟨0, -1, 0⟩
  | .Zn => ⟨0, 0, -1⟩

/-- An `FTransform`: translation, rotation (as a rotation matrix) and
3D scale. -/
structure FTransformQ where
  translation : Vec3
  rotation : Mat3
  scale3D : Vec3
deriving DecidableEq, Repr

/-- Modelled from the spec: the body of
`UXF_BlueprintFunctionLibrary::ConvertCoordinateSystem` is absent from
the sources (only its declaration in `XF_BlueprintFunctionLibrary.h` and
a call site in `Annotator.cpp` are present).  Per spec §4.4 it remaps the
transform's position and rotation in place by reinterpreting which
signed unit axis of the destination frame each source axis maps to,
leaving the scale unchanged: with `m` the matrix whose rows are the three
chosen unit vectors, the position is mapped through `m` and the rotation
is conjugated by `m`. -/
def ConvertCoordinateSystem (t : FTransformQ)
    (dstXInSrcAxis dstYInSrcAxis dstZInSrcAxis : EAxis) : FTransformQ :=
  let m : Mat3 := ⟨UnitVectorFromAxisEnum dstXInSrcAxis,
                   UnitVectorFromAxisEnum dstYInSrcAxis,
                   UnitVectorFromAxisEnum dstZInSrcAxis⟩
  { translation := m.mulVec t.translation
    rotation := (m.mul t.rotation).mul m.transpose
    scale3D := t.scale3D }

/-- Modelled from the spec: `ConvertUnrealToOpenCV` (declared in
`XF_BlueprintFunctionLibrary.h`, body absent from the sources) converts
an Unreal-convention transform (X forward, Y right, Z up) to the common
computer-vision convention (X right, Y down, Z forward): OpenCV X is
Unreal Y, OpenCV Y is Unreal -Z, OpenCV Z is Unreal X. -/
def ConvertUnrealToOpenCV (t : FTransformQ) : FTransformQ :=
  ConvertCoordinateSystem t .Y .Zn .X

/-- Modelled from the spec: `ConvertOpenCVToUnreal` (declared in
`XF_BlueprintFunctionLibrary.h`, body absent from the sources), the named
inverse conversion of `ConvertUnrealToOpenCV`. -/
def ConvertOpenCVToUnreal (t : FTransformQ) : FTransformQ :=
  ConvertCoordinateSystem t .Z .X .Yn

/-! ## Scene box-trace partitioner -/

/-- The part of a sweep / probe hit read by `DivideSceneViaBoxTrace`:
the hit actor's name and the hit location. -/
structure SweepHit where
  actorName : String
  location : Vec3
deriving DecidableEq, Repr

/-- Scene oracles for `DivideSceneViaBoxTrace`.  Each candidate point is
determined by its X and Y world coordinates (the start Z and end Z are
fixed for a sweep), so the oracles take the candidate's X and Y:
`sweep` models `SweepSingleByChannel` down to `HitEndZ`, `inside` models
`TestInside` (up and down ray pair; `some hit` means both rays hit the
same actor, with `hit` the up-ray result `UpHitResult`), and `visible`
models `TestVisible` back to the sweep origin. -/
structure SweepEnv where
  sweep : ℚ → ℚ → Option SweepHit
  inside : ℚ → ℚ → Option SweepHit
  visible : ℚ → ℚ → Bool

/-- The empty scene: every query of every primitive reports no hit. -/
def emptySweepEnv : SweepEnv :=
  { sweep := fun _ _ => none
    inside := fun _ _ => none
    visible := fun _ _ => false }

/-- The parameters of one `DivideSceneViaBoxTrace` sweep after start-up:
box half-size (also the grid step `DeltaStep`), the seed origin, the
four border extents and the sweep end depth. -/
structure SweepParams where
  boxHalfSize : Int
  origin : Vec3
  maxXExtend : ℚ
  minXExtend : ℚ
  maxYExtend : ℚ
  minYExtend : ℚ
  hitEndZ : ℚ

namespace SweepParams

def deltaStep (p : SweepParams) : ℚ := (p.boxHalfSize : ℚ)

def maxX (p : SweepParams) : ℚ := p.maxXExtend + p.origin.x

def minX (p : SweepParams) : ℚ := p.minXExtend + p.origin.x

def maxY (p : SweepParams) : ℚ := p.maxYExtend + p.origin.y

def minY (p : SweepParams) : ℚ := p.minYExtend + p.origin.y

end SweepParams

/-- One recorded cell row of the output table:
`ActorName, HitLoc.X, HitLoc.Y, HitLoc.Z - BoxHalfSize, MatNames,
bIsVisible ? 1 : 0`. -/
structure SweepCell where
  actorName : String
  x : ℚ
  y : ℚ
  z : ℚ
  materials : String
  visible : Bool
deriving DecidableEq, Repr

/-- One line of the output text `HitBoxesInfo`: the column header line
`actor_name,x,y,z,materials,visible`, the metadata name line
`BoxHalfSize,DeltaStep,CenterX,CenterY,CenterZ,HitEndZ`, the metadata
value line, or one recorded cell row. -/
inductive Row where
  | header
  | metaNames
  | metaValues (boxHalfSize : Int) (deltaStep cx cy cz hitEndZ : ℚ)
  | cell (c : SweepCell)
deriving DecidableEq, Repr

/-- The per-quadrant loop state of `DivideSceneViaBoxTrace`: grid
offsets `i`, `j`, the two not-hit counters, and the output rows
accumulated so far in `HitBoxesInfo`. -/
structure QState where
  i : Nat
  j : Nat
  notHitCount : Nat
  notHitRowCount : Nat
  rows : List Row

/-- Result of one iteration of the `while (true)` sweep loop: continue
with a new state, or leave the loop (`break`). -/
inductive StepRes where
  | next (s : QState)
  | stop (s : QState)

/-- The hit result a recorded cell is read from:
`FHitResult& HitRes = bIsInside ? UpHitResult : HitResult;` — the inside
probe's up-hit when the candidate is inside geometry, otherwise the box
sweep's hit (only selected under the guard `bIsHit || bIsInside`, so the
`getD` default is never read). -/
def selectedHit (env : SweepEnv) (x y : ℚ) : SweepHit :=
  match env.inside x y with
  | some h => h
  | none => (env.sweep x y).getD ⟨"", ⟨0, 0, 0⟩⟩

/-- One iteration of the `while (true)` loop of `DivideSceneViaBoxTrace`
(`XF_BlueprintFunctionLibrary.cpp` / `SF_BlueprintFunctionLibrary.cpp`;
the two are identical).  `sx`, `sy` are the quadrant signs `SignX`,
`SignY`. -/
def sweepStep (env : SweepEnv) (p : SweepParams) (sx sy : Int)
    (s : QState) : StepRes :=
  let startX := p.origin.x + p.deltaStep * (s.i : ℚ) * (sx : ℚ)
  let startY := p.origin.y + p.deltaStep * (s.j : ℚ) * (sy : ℚ)
  let bIsWithinBorder := decide (p.minX < startX) && decide (startX < p.maxX)
    && decide (p.minY < startY) && decide (startY < p.maxY)
  let bIsAroundOrigin := decide (s.i < 10) && decide (s.j < 10)
  let hit := env.sweep startX startY
  let inside := env.inside startX startY
  let bIsVisible := env.visible startX startY
  if (hit.isSome || inside.isSome) && bIsWithinBorder then
    let hitRes := selectedHit env startX startY
    let cell : SweepCell :=
      ⟨hitRes.actorName, hitRes.location.x, hitRes.location.y,
        hitRes.location.z - (p.boxHalfSize : ℚ), "", bIsVisible⟩
    .next ⟨s.i, s.j + 1, 0, 0, s.rows ++ [Row.cell cell]⟩
  else if bIsAroundOrigin && bIsWithinBorder then
    .next ⟨s.i, s.j + 1, s.notHitCount, s.notHitRowCount, s.rows⟩
  else
    if s.notHitCount + 1 > 2 then
      if s.notHitRowCount + 1 > 2 then
        .stop ⟨s.i, s.j, 0, s.notHitRowCount + 1, s.rows⟩
      else
        .next ⟨s.i + 1, 0, 0, s.notHitRowCount + 1, s.rows⟩
    else
      .next ⟨s.i, s.j + 1, s.notHitCount + 1, s.notHitRowCount, s.rows⟩

/-- Run one quadrant's `while (true)` loop for at most `fuel` iterations;
`some s` is the state at `break`, `none` means the loop was still running
after `fuel` iterations (the C++ loop is unbounded). -/
def runQuadrant (env : SweepEnv) (p : SweepParams) (sx sy : Int) :
    Nat → QState → Option QState
  | 0, _ => none
  | fuel + 1, s =>
    match sweepStep env p sx sy s with
    | .stop s1 => some s1
    | .next s1 => runQuadrant env p sx sy fuel s1

/-- The initial contents of `HitBoxesInfo`: the column header line, the
metadata name line and the metadata value line, written before any cell
row. -/
def initRows (p : SweepParams) : List Row :=
  [Row.header, Row.metaNames,
   Row.metaValues p.boxHalfSize p.deltaStep p.origin.x p.origin.y p.origin.z
     p.hitEndZ]

/-- `DivideSceneViaBoxTrace` on the `EnableTrace = true`,
`UseRandomStartPointXAndY = false` path: build the header rows, then run
the four quadrant sweeps `SignX, SignY ∈ {1, -1}` in order, all
appending to the same output table; `none` if any quadrant is still
running after `fuel` iterations. -/
def DivideSceneViaBoxTrace (env : SweepEnv) (p : SweepParams) (fuel : Nat) :
    Option (List Row) := do
  let s1 ← runQuadrant env p 1 1 fuel ⟨0, 0, 0, 0, initRows p⟩
  let s2 ← runQuadrant env p 1 (-1) fuel ⟨0, 0, 0, 0, s1.rows⟩
  let s3 ← runQuadrant env p (-1) 1 fuel ⟨0, 0, 0, 0, s2.rows⟩
  let s4 ← runQuadrant env p (-1) (-1) fuel ⟨0, 0, 0, 0, s3.rows⟩
  return s4.rows

/-! ## Concrete scenes used to exercise the definitions -/

/-- A scene in which no line trace ever hits anything. -/
def noHitTraceEnv : OcclusionEnv := ⟨fun _ _ => none⟩

/-- A scene in which every line trace is stopped by the actor `"m"` at
world location `(0, 0, 7)`; the trace end is the queried vertex. -/
def ownerHitAt7Env : OcclusionEnv :=
  ⟨fun _ vertex => some ⟨"m", ⟨0, 0, 7⟩, vertex⟩⟩

/-- A one-triangle skeletal mesh component: one LOD, three vertices, the
identity component-to-world transform. -/
def oneTriangleComp : SkeletalMeshComponent :=
  { isValidLowLevel := true
    componentToWorld := fun v => v
    lodRenderData := [⟨[⟨0, 0, 0⟩, ⟨1, 0, 0⟩, ⟨0, 1, 0⟩], [0, 1, 2]⟩] }

/-- A scene whose box sweep always hits the actor `"floor"` at world
location `(0, 0, 0)`, with no inside-probe hits and full visibility. -/
def floorHitEnv : SweepEnv :=
  { sweep := fun _ _ => some ⟨"floor", ⟨0, 0, 0⟩⟩
    inside := fun _ _ => none
    visible := fun _ _ => true }

/-- Sweep parameters with the default border (±1500 around the origin),
box half-size 20, seed `(0, 0, 100)`. -/
def borderedParams : SweepParams :=
  ⟨20, ⟨0, 0, 100⟩, 1500, -1500, 1500, -1500, -2000⟩

/-- Sweep parameters whose border region is empty (`MaxXExtend = -1`),
so every candidate point is outside the border. -/
def emptyBorderParams : SweepParams :=
  ⟨20, ⟨0, 0, 0⟩, -1, -1, -1, -1, -2000⟩

/-! ## Helper lemmas -/

theorem foldl_append_singleton {α β : Type} (f : α → β) (vs : List α) :
    ∀ init : List β, vs.foldl (fun acc v => acc ++ [f v]) init = init ++ vs.map f := by
  induction vs with
  | nil => intro init; simp
  | cons v vs ih => intro init; simp [List.foldl_cons, ih]

theorem countLabel_sum (l : List EOcclusion) :
    countLabel EOcclusion.NonOcclusion l + countLabel EOcclusion.SelfOcclusion l
      + countLabel EOcclusion.InterOcclusion l = l.length := by
  induction l with
  | nil => rfl
  | cons o l ih =>
    cases o <;> simp [countLabel, List.countP_cons] at ih ⊢ <;> omega

/-- The full input-output behaviour of `DetectInterOcclusionVertices`:
the out-array is the incoming array with one label appended per vertex,
and each rate divides the corresponding count over the whole array by
the whole array's length. -/
theorem DetectInterOcclusionVertices_eq (env : OcclusionEnv) (vertices : List Vec3)
    (cameraLocation : Vec3) (meshName : String) (occ0 : List EOcclusion)
    (meshThickness : ℚ) :
    DetectInterOcclusionVertices env vertices cameraLocation meshName occ0
        meshThickness =
      (occ0 ++ vertices.map (classifyVertex env cameraLocation meshName),
        (ratDiv (countLabel EOcclusion.NonOcclusion
            (occ0 ++ vertices.map (classifyVertex env cameraLocation meshName)) : ℚ)
          ((occ0.length + vertices.length : ℕ) : ℚ),
         ratDiv (countLabel EOcclusion.SelfOcclusion
            (occ0 ++ vertices.map (classifyVertex env cameraLocation meshName)) : ℚ)
          ((occ0.length + vertices.length : ℕ) : ℚ),
         ratDiv (countLabel EOcclusion.InterOcclusion
            (occ0 ++ vertices.map (classifyVertex env cameraLocation meshName)) : ℚ)
          ((occ0.length + vertices.length : ℕ) : ℚ))) := by
  unfold DetectInterOcclusionVertices
  rw [foldl_append_singleton]
  simp

/-- In the empty scene the record branch of the sweep loop is dead (no
primitive ever hits), leaving only the pass-through branch and the
miss/counter branch. -/
theorem sweepStep_empty (p : SweepParams) (sx sy : Int) (s : QState) :
    sweepStep emptySweepEnv p sx sy s =
      if (decide (s.i < 10) && decide (s.j < 10)
          && (decide (p.minX < p.origin.x + p.deltaStep * (s.i : ℚ) * (sx : ℚ))
            && decide (p.origin.x + p.deltaStep * (s.i : ℚ) * (sx : ℚ) < p.maxX)
            && decide (p.minY < p.origin.y + p.deltaStep * (s.j : ℚ) * (sy : ℚ))
            && decide (p.origin.y + p.deltaStep * (s.j : ℚ) * (sy : ℚ) < p.maxY)))
          = true
      then StepRes.next ⟨s.i, s.j + 1, s.notHitCount, s.notHitRowCount, s.rows⟩
      else if s.notHitCount + 1 > 2 then
        if s.notHitRowCount + 1 > 2 then
          StepRes.stop ⟨s.i, s.j, 0, s.notHitRowCount + 1, s.rows⟩
        else StepRes.next ⟨s.i + 1, 0, 0, s.notHitRowCount + 1, s.rows⟩
      else StepRes.next ⟨s.i, s.j + 1, s.notHitCount + 1, s.notHitRowCount, s.rows⟩ := by
  simp only [sweepStep, emptySweepEnv, Option.isSome_none, Bool.or_self,
    Bool.false_and, Bool.false_eq_true, if_false]

/-- In the empty scene every pass-through step requires `j < 10` and a
row can absorb at most three misses, so from any in-row state the
quadrant loop breaks within `(2 - nhrc) * 13 + (10 - j) + (3 - nhc)`
further iterations, ending with the not-hit-row counter at 3 and the
output rows untouched. -/
theorem runQuadrant_emptySweepEnv_breaks (p : SweepParams) (sx sy : Int) :
    ∀ (fuel i j nhc nhrc : Nat) (rows : List Row), nhc ≤ 2 → nhrc ≤ 2 →
      (2 - nhrc) * 13 + (10 - j) + (3 - nhc) ≤ fuel →
      ∃ s1, runQuadrant emptySweepEnv p sx sy fuel ⟨i, j, nhc, nhrc, rows⟩
          = some s1 ∧ s1.notHitRowCount = 3 ∧ s1.rows = rows := by
  intro fuel
  induction fuel with
  | zero =>
    intro i j nhc nhrc rows h1 h2 h3
    omega
  | succ fuel ih =>
    intro i j nhc nhrc rows h1 h2 h3
    rw [runQuadrant, sweepStep_empty]
    by_cases hP : (decide (i < 10) && decide (j < 10)
        && (decide (p.minX < p.origin.x + p.deltaStep * (i : ℚ) * (sx : ℚ))
          && decide (p.origin.x + p.deltaStep * (i : ℚ) * (sx : ℚ) < p.maxX)
          && decide (p.minY < p.origin.y + p.deltaStep * (j : ℚ) * (sy : ℚ))
          && decide (p.origin.y + p.deltaStep * (j : ℚ) * (sy : ℚ) < p.maxY)))
        = true
    · have hj : j < 10 := by
        have hP2 := hP
        simp only [Bool.and_eq_true, decide_eq_true_eq] at hP2
        exact hP2.1.2
      rw [if_pos hP]
      exact ih i (j + 1) nhc nhrc rows h1 h2 (by omega)
    · rw [if_neg hP]
      by_cases hc : nhc + 1 > 2
      · rw [if_pos hc]
        by_cases hr : nhrc + 1 > 2
        · rw [if_pos hr]
          exact ⟨⟨i, j, 0, nhrc + 1, rows⟩, rfl, by show nhrc + 1 = 3; omega, rfl⟩
        · rw [if_neg hr]
          exact ih (i + 1) 0 0 (nhrc + 1) rows (by omega) (by omega) (by omega)
      · rw [if_neg hc]
        exact ih i (j + 1) (nhc + 1) nhrc rows (by omega) h2 (by omega)

/-- In the empty scene the full `DivideSceneViaBoxTrace` pipeline (all
four quadrants, 39 iterations of fuel each) terminates and outputs
exactly the three header rows. -/
theorem divideScene_emptySweepEnv_eq (p : SweepParams) :
    DivideSceneViaBoxTrace emptySweepEnv p 39 = some (initRows p) := by
  obtain ⟨s1, e1, -, r1⟩ :=
    runQuadrant_emptySweepEnv_breaks p 1 1 39 0 0 0 0 (initRows p)
      (by omega) (by omega) (by omega)
  obtain ⟨s2, e2, -, r2⟩ :=
    runQuadrant_emptySweepEnv_breaks p 1 (-1) 39 0 0 0 0 s1.rows
      (by omega) (by omega) (by omega)
  obtain ⟨s3, e3, -, r3⟩ :=
    runQuadrant_emptySweepEnv_breaks p (-1) 1 39 0 0 0 0 s2.rows
      (by omega) (by omega) (by omega)
  obtain ⟨s4, e4, -, r4⟩ :=
    runQuadrant_emptySweepEnv_breaks p (-1) (-1) 39 0 0 0 0 s3.rows
      (by omega) (by omega) (by omega)
  rw [r1] at e2
  rw [r2, r1] at e3
  rw [r3, r2, r1] at e4
  simp [DivideSceneViaBoxTrace, e1, e2, e3, e4, r4, r3, r2, r1]

/-- Each loop iteration either leaves the accumulated rows unchanged or
appends exactly one cell row. -/
theorem sweepStep_rowsShape (env : SweepEnv) (p : SweepParams) (sx sy : Int)
    (s : QState) :
    (∀ s2, sweepStep env p sx sy s = StepRes.next s2 →
      s2.rows = s.rows ∨ ∃ cd, s2.rows = s.rows ++ [Row.cell cd]) ∧
    (∀ s2, sweepStep env p sx sy s = StepRes.stop s2 → s2.rows = s.rows) := by
  constructor <;> intro s2 h <;> simp only [sweepStep] at h <;>
    (repeat' split at h) <;> cases h <;>
    first
      | exact Or.inl rfl
      | exact Or.inr ⟨_, rfl⟩
      | rfl

/-- A successful quadrant run only appends cell rows to the output. -/
theorem runQuadrant_rows_extend (env : SweepEnv) (p : SweepParams) (sx sy : Int) :
    ∀ (fuel : Nat) (s s1 : QState),
      runQuadrant env p sx sy fuel s = some s1 →
      ∃ cells, s1.rows = s.rows ++ cells ∧ ∀ r ∈ cells, ∃ cd, r = Row.cell cd := by
  intro fuel
  induction fuel with
  | zero => intro s s1 h; simp [runQuadrant] at h
  | succ fuel ih =>
    intro s s1 h
    rw [runQuadrant] at h
    rcases hstep : sweepStep env p sx sy s with s2 | s2 <;> rw [hstep] at h
    · obtain ⟨cells, hc, hcc⟩ := ih s2 s1 h
      rcases (sweepStep_rowsShape env p sx sy s).1 s2 hstep with h2 | ⟨cd, h2⟩
      · exact ⟨cells, by rw [hc, h2], hcc⟩
      · refine ⟨Row.cell cd :: cells, by rw [hc, h2]; simp, ?_⟩
        intro r hr
        rcases List.mem_cons.mp hr with rfl | hr
        · exact ⟨cd, rfl⟩
        · exact hcc r hr
    · cases h
      exact ⟨[], by simp [(sweepStep_rowsShape env p sx sy s).2 _ hstep], by simp⟩

/-! ## Claim theorems -/

/-- C1: for every ray-cast result, the occlusion label computed by
`GetOcclusionFromHitResult` is: `NonOcclusion` when `bIsHit = false`;
`InterOcclusion` when a hit occurs on an actor other than the owner; and
for a hit on the owner at distance `d` between the target point
(`TraceEnd`) and the hit location, `SelfOcclusion` iff
`d < MeshThickness` and `NonOcclusion` otherwise, the boundary case
`d = MeshThickness` (i.e. `sqDist = MeshThickness²`) giving
`NonOcclusion`. -/
theorem getOcclusionFromHitResult_characterization (hr : HitResult)
    (meshName : String) (t : Int) :
    GetOcclusionFromHitResult hr meshName t false = EOcclusion.NonOcclusion ∧
    (hr.actorName ≠ meshName →
      GetOcclusionFromHitResult hr meshName t true = EOcclusion.InterOcclusion) ∧
    (hr.actorName = meshName →
      (GetOcclusionFromHitResult hr meshName t true = EOcclusion.SelfOcclusion ↔
        Vec3.distLt hr.traceEnd hr.location (t : ℚ) = true) ∧
      (GetOcclusionFromHitResult hr meshName t true = EOcclusion.NonOcclusion ↔
        Vec3.distLt hr.traceEnd hr.location (t : ℚ) = false) ∧
      (Vec3.sqDist hr.traceEnd hr.location = (t : ℚ) * (t : ℚ) →
        GetOcclusionFromHitResult hr meshName t true = EOcclusion.NonOcclusion)) := by
  refine ⟨rfl, ?_, ?_⟩
  · intro hne
    simp [GetOcclusionFromHitResult, hne]
  · intro heq
    have hself : ∀ b : Bool, Vec3.distLt hr.traceEnd hr.location (t : ℚ) = b →
        GetOcclusionFromHitResult hr meshName t true =
          (if b then EOcclusion.SelfOcclusion else EOcclusion.NonOcclusion) := by
      intro b hb
      cases b <;> simp [GetOcclusionFromHitResult, heq, hb]
    rcases hd : Vec3.distLt hr.traceEnd hr.location (t : ℚ) with _ | _
    · simp [hself false hd]
    · simp [hself true hd]
      intro hsq
      exfalso
      have : Vec3.distLt hr.traceEnd hr.location (t : ℚ) = false := by
        simp [Vec3.distLt, hsq]
      rw [hd] at this
      simp at this

/-- Witness for C1: a hit on the owner at distance 3 < 5 is
`SelfOcclusion`, a hit on another actor is `InterOcclusion`. -/
theorem getOcclusionFromHitResult_characterization_witness :
    GetOcclusionFromHitResult ⟨"m", ⟨0, 0, 3⟩, ⟨0, 0, 0⟩⟩ "m" 5 true
        = EOcclusion.SelfOcclusion ∧
    GetOcclusionFromHitResult ⟨"other", ⟨0, 0, 3⟩, ⟨0, 0, 0⟩⟩ "m" 5 true
        = EOcclusion.InterOcclusion := by
  constructor
  · exact ((getOcclusionFromHitResult_characterization ⟨"m", ⟨0, 0, 3⟩, ⟨0, 0, 0⟩⟩
      "m" 5).2.2 rfl).1.mpr (by simp [Vec3.distLt, Vec3.sqDist]; norm_num)
  · exact (getOcclusionFromHitResult_characterization ⟨"other", ⟨0, 0, 3⟩, ⟨0, 0, 0⟩⟩
      "m" 5).2.1 (by simp)

/-- C2 (code bug): for a batch classification over an empty point set
(and an empty incoming out-array) the denominator
`VerticesOcclusion.Num()` is 0 and all three rates are computed as the
float division `0/0`, i.e. NaN (modelled by `ratDiv _ 0 = none`), in any
scene: the division by zero the claim excludes does occur, and the rates
are not 0. -/
theorem detectInterOcclusionVertices_emptyInput_ratesNaN (env : OcclusionEnv)
    (cameraLocation : Vec3) (meshName : String) (t : ℚ) :
    DetectInterOcclusionVertices env [] cameraLocation meshName [] t
      = ([], (none, none, none)) := by
  rw [DetectInterOcclusionVertices_eq]
  simp [ratDiv]

/-- C3 (code bug): `DetectInterOcclusionVertices` passes the literal 5
to `GetOcclusionFromHitResult` instead of its `MeshThickness` parameter.
In a scene where the ray to the single sampled vertex `(0,0,0)` is
stopped by the owner actor at `(0,0,7)` (hit distance 7), the resulting
label is `NonOcclusion` for every value of `MeshThickness` — including
`MeshThickness = 10`, where the claimed behaviour (threshold = the
caller-supplied value) requires `SelfOcclusion` since 7 < 10. -/
theorem detectInterOcclusionVertices_ignoresThickness (t : ℚ) :
    (DetectInterOcclusionVertices ownerHitAt7Env [⟨0, 0, 0⟩] ⟨0, 0, 100⟩ "m" [] t).1
      = [EOcclusion.NonOcclusion] := by
  rw [DetectInterOcclusionVertices_eq]
  simp [classifyVertex, ownerHitAt7Env, GetOcclusionFromHitResult,
    Vec3.distLt, Vec3.sqDist]
  norm_num

/-- C7: in one batch call (fresh out-array), every point receives
exactly one of the three labels, the three per-label counts sum to the
number of points, and for a non-empty point set the three returned rates
are defined and sum to 1. -/
theorem classifyPoints_completeness (env : OcclusionEnv) (vertices : List Vec3)
    (cameraLocation : Vec3) (meshName : String) (t : ℚ) :
    (DetectInterOcclusionVertices env vertices cameraLocation meshName [] t).1.length
        = vertices.length ∧
    (∀ o ∈ (DetectInterOcclusionVertices env vertices cameraLocation meshName [] t).1,
      o = EOcclusion.NonOcclusion ∨ o = EOcclusion.SelfOcclusion
        ∨ o = EOcclusion.InterOcclusion) ∧
    countLabel EOcclusion.NonOcclusion
        (DetectInterOcclusionVertices env vertices cameraLocation meshName [] t).1
      + countLabel EOcclusion.SelfOcclusion
        (DetectInterOcclusionVertices env vertices cameraLocation meshName [] t).1
      + countLabel EOcclusion.InterOcclusion
        (DetectInterOcclusionVertices env vertices cameraLocation meshName [] t).1
      = vertices.length ∧
    (vertices ≠ [] → ∃ a b c,
      (DetectInterOcclusionVertices env vertices cameraLocation meshName [] t).2.1
          = some a ∧
      (DetectInterOcclusionVertices env vertices cameraLocation meshName [] t).2.2.1
          = some b ∧
      (DetectInterOcclusionVertices env vertices cameraLocation meshName [] t).2.2.2
          = some c ∧
      a + b + c = 1) := by
  rw [DetectInterOcclusionVertices_eq]
  refine ⟨by simp, ?_, ?_, ?_⟩
  · intro o _
    cases o
    · exact Or.inl rfl
    · exact Or.inr (Or.inl rfl)
    · exact Or.inr (Or.inr rfl)
  · simpa using countLabel_sum (vertices.map (classifyVertex env cameraLocation meshName))
  · intro hne
    have hlen : vertices.length ≠ 0 := by
      simpa [List.length_eq_zero] using hne
    have hcast : ((vertices.length : ℕ) : ℚ) ≠ 0 := Nat.cast_ne_zero.mpr hlen
    have hsum : countLabel EOcclusion.NonOcclusion
          (vertices.map (classifyVertex env cameraLocation meshName))
        + countLabel EOcclusion.SelfOcclusion
          (vertices.map (classifyVertex env cameraLocation meshName))
        + countLabel EOcclusion.InterOcclusion
          (vertices.map (classifyVertex env cameraLocation meshName))
        = vertices.length := by
      simpa using countLabel_sum (vertices.map (classifyVertex env cameraLocation meshName))
    refine ⟨(countLabel EOcclusion.NonOcclusion
          (vertices.map (classifyVertex env cameraLocation meshName)) : ℚ)
            / (vertices.length : ℚ),
        (countLabel EOcclusion.SelfOcclusion
          (vertices.map (classifyVertex env cameraLocation meshName)) : ℚ)
            / (vertices.length : ℚ),
        (countLabel EOcclusion.InterOcclusion
          (vertices.map (classifyVertex env cameraLocation meshName)) : ℚ)
            / (vertices.length : ℚ),
        by simp [ratDiv, hcast], by simp [ratDiv, hcast], by simp [ratDiv, hcast], ?_⟩
    rw [div_add_div_same, div_add_div_same, div_eq_one_iff_eq hcast]
    exact_mod_cast hsum

/-- Witness for C7: a one-point batch in a no-hit scene has defined
rates summing to 1. -/
theorem classifyPoints_completeness_witness :
    ∃ a b c,
      (DetectInterOcclusionVertices noHitTraceEnv [⟨0, 0, 0⟩] ⟨0, 0, 9⟩ "m" [] 5).2.1
          = some a ∧
      (DetectInterOcclusionVertices noHitTraceEnv [⟨0, 0, 0⟩] ⟨0, 0, 9⟩ "m" [] 5).2.2.1
          = some b ∧
      (DetectInterOcclusionVertices noHitTraceEnv [⟨0, 0, 0⟩] ⟨0, 0, 9⟩ "m" [] 5).2.2.2
          = some c ∧
      a + b + c = 1 :=
  (classifyPoints_completeness noHitTraceEnv [⟨0, 0, 0⟩] ⟨0, 0, 9⟩ "m" 5).2.2.2
    (by simp)

/-- C10: `DetectInterOcclusionVertices` never clears its
`VerticesOcclusion` out-array: the array after the call is its previous
contents followed by exactly one label per input vertex in input order,
and each returned rate divides by the total array length (previous
entries plus new ones), not by the input count. -/
theorem detectInterOcclusionVertices_appends (env : OcclusionEnv)
    (vertices : List Vec3) (cameraLocation : Vec3) (meshName : String)
    (occ0 : List EOcclusion) (t : ℚ) :
    (DetectInterOcclusionVertices env vertices cameraLocation meshName occ0 t).1
        = occ0 ++ vertices.map (classifyVertex env cameraLocation meshName) ∧
    (vertices.map (classifyVertex env cameraLocation meshName)).length
        = vertices.length ∧
    (DetectInterOcclusionVertices env vertices cameraLocation meshName occ0 t).2.1
        = ratDiv (countLabel EOcclusion.NonOcclusion
            (DetectInterOcclusionVertices env vertices cameraLocation meshName occ0 t).1 : ℚ)
          ((occ0.length + vertices.length : ℕ) : ℚ) ∧
    (DetectInterOcclusionVertices env vertices cameraLocation meshName occ0 t).2.2.1
        = ratDiv (countLabel EOcclusion.SelfOcclusion
            (DetectInterOcclusionVertices env vertices cameraLocation meshName occ0 t).1 : ℚ)
          ((occ0.length + vertices.length : ℕ) : ℚ) ∧
    (DetectInterOcclusionVertices env vertices cameraLocation meshName occ0 t).2.2.2
        = ratDiv (countLabel EOcclusion.InterOcclusion
            (DetectInterOcclusionVertices env vertices cameraLocation meshName occ0 t).1 : ℚ)
          ((occ0.length + vertices.length : ℕ) : ℚ) := by
  rw [DetectInterOcclusionVertices_eq]
  exact ⟨rfl, by simp, rfl, rfl, rfl⟩

/-- C8: for a valid, non-null component,
`GetSkeletalMeshVertexLocationsByLODIndex` is rejected by the
`LODIndex > LODTotal` guard exactly when `LODIndex > LODTotal`, and on
rejection it returns failure with an empty output array (the out-array
is emptied on entry and never partially populated). -/
theorem getSkeletalMeshVertexLocations_lodGuard (c : SkeletalMeshComponent)
    (lodIndex : Int) (hvalid : c.isValidLowLevel = true) :
    (lodIndex > (c.lodRenderData.length : Int) →
      GetSkeletalMeshVertexLocationsByLODIndex (some c) lodIndex
          = Except.error VertexFail.lodOutOfRange ∧
      vertexPositionsOut (GetSkeletalMeshVertexLocationsByLODIndex (some c) lodIndex)
          = []) ∧
    (GetSkeletalMeshVertexLocationsByLODIndex (some c) lodIndex
        = Except.error VertexFail.lodOutOfRange →
      lodIndex > (c.lodRenderData.length : Int)) := by
  constructor
  · intro hgt
    have hres : GetSkeletalMeshVertexLocationsByLODIndex (some c) lodIndex
        = Except.error VertexFail.lodOutOfRange := by
      simp [GetSkeletalMeshVertexLocationsByLODIndex, hvalid, hgt]
    exact ⟨hres, by simp [hres, vertexPositionsOut]⟩
  · intro hres
    by_contra hle
    rcases hg : intGet c.lodRenderData lodIndex with _ | lodData <;>
      simp [GetSkeletalMeshVertexLocationsByLODIndex, hvalid, hle, hg] at hres

/-- Witness for C8: a component with one LOD rejects `LODIndex = 2`
through the guard, with an empty output array. -/
theorem getSkeletalMeshVertexLocations_lodGuard_witness :
    GetSkeletalMeshVertexLocationsByLODIndex (some oneTriangleComp) 2
        = Except.error VertexFail.lodOutOfRange ∧
    vertexPositionsOut (GetSkeletalMeshVertexLocationsByLODIndex (some oneTriangleComp) 2)
        = [] :=
  (getSkeletalMeshVertexLocations_lodGuard oneTriangleComp 2 rfl).1 (by decide)

/-- C5: the two named axis conversions are exact inverses — converting a
transform from Unreal to OpenCV coordinates and back yields the original
transform — and neither conversion changes the transform's scale.
(Both conversions are modelled from the spec, their bodies being absent
from the sources.) -/
theorem convertAxes_roundTrip (t : FTransformQ) :
    ConvertOpenCVToUnreal (ConvertUnrealToOpenCV t) = t ∧
    (ConvertUnrealToOpenCV t).scale3D = t.scale3D ∧
    (ConvertOpenCVToUnreal t).scale3D = t.scale3D := by
  obtain ⟨⟨px, py, pz⟩, ⟨⟨a, b, c⟩, ⟨d, e, f⟩, ⟨g, h, i⟩⟩, s⟩ := t
  refine ⟨?_, rfl, rfl⟩
  simp only [ConvertOpenCVToUnreal, ConvertUnrealToOpenCV, ConvertCoordinateSystem,
    UnitVectorFromAxisEnum, Mat3.mul, Mat3.mulVec, Mat3.transpose, Vec3.dot]
  norm_num

/-- The triangle loop computes, for each consecutive index triple of the
index buffer, the triangle's center kept under the version's sign test
on the camera-forward / world-normal dot product. -/
theorem faceCentersLoop_eq_filterMap (useGreater : Bool) (rot : Mat3) (fwd : Vec3)
    (vs : List Vec3) (faces : List Nat) :
    faceCentersLoop useGreater rot fwd vs faces
      = (chunk3 faces).filterMap (fun tr =>
          if (if useGreater then 0 < triCheck rot fwd vs tr
              else triCheck rot fwd vs tr < 0)
          then some (triCenter vs tr) else none) := by
  induction faces using chunk3.induct with
  | case1 a b c rest ih =>
    by_cases hk : (if useGreater then 0 < triCheck rot fwd vs (a, b, c)
        else triCheck rot fwd vs (a, b, c) < 0)
    · simp only [faceCentersLoop, chunk3, List.filterMap_cons, if_pos hk, ih]
      rcases useGreater <;>
        simp_all [triCheck, triCenter, Vec3.add, Vec3.sub, Vec3.divScalar]
    · simp only [faceCentersLoop, chunk3, List.filterMap_cons, if_neg hk, ih]
      rcases useGreater <;>
        simp_all [triCheck, triCenter, Vec3.add, Vec3.sub, Vec3.divScalar]
  | case2 x hx =>
    rcases x with _ | ⟨a, _ | ⟨b, _ | ⟨c, rest⟩⟩⟩
    · simp [faceCentersLoop, chunk3]
    · simp [faceCentersLoop, chunk3]
    · simp [faceCentersLoop, chunk3]
    · exact (hx a b c rest rfl).elim

/-- C4 (amended): both versions of
`GetSkeletalMeshValidFaceCentersByLODIndex` iterate the index buffer in
triples `[i, i+1, i+2]` with `i` stepping by 3 and compute each
triangle's center (mean of its three world-space vertices) and the dot
product of the camera forward vector with the world normal (the actor's
world rotation applied to `cross(p1 - p3, p2 - p1)`), but the two
versions use opposite sign tests: the XRFeitoriaGear (`SF_`) version
includes the center exactly when the dot product is positive, while the
XRFeitoriaUnreal (`XF_`) version includes it exactly when the dot
product is negative. -/
theorem validFaceCenters_characterization (rot : Mat3) (fwd : Vec3)
    (c : SkeletalMeshComponent) (lodIndex : Int) (vs : List Vec3)
    (lodData : LodRenderData)
    (hv : GetSkeletalMeshVertexLocationsByLODIndex (some c) lodIndex = Except.ok vs)
    (hl : intGet c.lodRenderData lodIndex = some lodData) :
    SF_GetSkeletalMeshValidFaceCentersByLODIndex rot fwd (some c) lodIndex
      = Except.ok ((chunk3 lodData.indexBuffer).filterMap (fun tr =>
          if 0 < triCheck rot fwd vs tr then some (triCenter vs tr) else none)) ∧
    XF_GetSkeletalMeshValidFaceCentersByLODIndex rot fwd (some c) lodIndex
      = Except.ok ((chunk3 lodData.indexBuffer).filterMap (fun tr =>
          if triCheck rot fwd vs tr < 0 then some (triCenter vs tr) else none)) := by
  constructor
  · rw [SF_GetSkeletalMeshValidFaceCentersByLODIndex,
      GetSkeletalMeshValidFaceCentersByLODIndex, hv]
    simp only [hl]
    rw [faceCentersLoop_eq_filterMap]
    simp
  · rw [XF_GetSkeletalMeshValidFaceCentersByLODIndex,
      GetSkeletalMeshValidFaceCentersByLODIndex, hv]
    simp only [hl]
    rw [faceCentersLoop_eq_filterMap]
    simp

/-- Witness for C4: on a one-triangle mesh with world normal `(0,0,1)`
and camera forward `(0,0,1)` (dot product 1), the characterization
applies with both hypotheses discharged. -/
theorem validFaceCenters_characterization_witness :
    SF_GetSkeletalMeshValidFaceCentersByLODIndex Mat3.identity ⟨0, 0, 1⟩
        (some oneTriangleComp) 0
      = Except.ok ((chunk3 [0, 1, 2]).filterMap (fun tr =>
          if 0 < triCheck Mat3.identity ⟨0, 0, 1⟩ [⟨0, 0, 0⟩, ⟨1, 0, 0⟩, ⟨0, 1, 0⟩] tr
          then some (triCenter [⟨0, 0, 0⟩, ⟨1, 0, 0⟩, ⟨0, 1, 0⟩] tr) else none)) ∧
    XF_GetSkeletalMeshValidFaceCentersByLODIndex Mat3.identity ⟨0, 0, 1⟩
        (some oneTriangleComp) 0
      = Except.ok ((chunk3 [0, 1, 2]).filterMap (fun tr =>
          if triCheck Mat3.identity ⟨0, 0, 1⟩ [⟨0, 0, 0⟩, ⟨1, 0, 0⟩, ⟨0, 1, 0⟩] tr < 0
          then some (triCenter [⟨0, 0, 0⟩, ⟨1, 0, 0⟩, ⟨0, 1, 0⟩] tr) else none)) :=
  validFaceCenters_characterization Mat3.identity ⟨0, 0, 1⟩ oneTriangleComp 0
    [⟨0, 0, 0⟩, ⟨1, 0, 0⟩, ⟨0, 1, 0⟩] ⟨[⟨0, 0, 0⟩, ⟨1, 0, 0⟩, ⟨0, 1, 0⟩], [0, 1, 2]⟩
    rfl rfl

/-- Counterexample to C4 as stated: the XRFeitoriaUnreal version of
`GetSkeletalMeshValidFaceCentersByLODIndex`, on a one-triangle mesh with
camera forward `(0,0,-1)`, includes the triangle's center although the
dot product of the camera forward vector with the world normal is
negative — contradicting the claim that a center is included exactly
when that dot product is positive. -/
theorem xfValidFaceCenters_counterexample :
    XF_GetSkeletalMeshValidFaceCentersByLODIndex Mat3.identity ⟨0, 0, -1⟩
        (some oneTriangleComp) 0
      = Except.ok [⟨1/3, 1/3, 0⟩] ∧
    triCheck Mat3.identity ⟨0, 0, -1⟩ [⟨0, 0, 0⟩, ⟨1, 0, 0⟩, ⟨0, 1, 0⟩] (0, 1, 2)
      < 0 := by
  constructor
  · rw [XF_GetSkeletalMeshValidFaceCentersByLODIndex,
      GetSkeletalMeshValidFaceCentersByLODIndex]
    simp only [GetSkeletalMeshVertexLocationsByLODIndex, oneTriangleComp, intGet]
    norm_num [faceCentersLoop, Vec3.dot, Vec3.cross, Vec3.sub, Vec3.add,
      Vec3.divScalar, Mat3.mulVec, Mat3.identity]
  · norm_num [triCheck, Vec3.dot, Vec3.cross, Vec3.sub, Vec3.add, Mat3.mulVec,
      Mat3.identity]

/-- C6: if the box-sweep primitive, the inside probe and the visibility
ray all report no hit for every query (an empty scene), then each of the
four quadrant loops of `DivideSceneViaBoxTrace` terminates — it breaks
within 39 = 3 × (10 + 3) iterations, i.e. at most 3 rows of at most 10
pass-through steps plus 3 miss steps each — with the not-hit-row counter
at 3, having exceeded 2, for arbitrary border parameters; the full
four-quadrant sweep hence terminates with no cell recorded. -/
theorem divideScene_emptyScene_terminates (p : SweepParams) :
    (∀ (sx sy : Int) (rows : List Row), ∃ s1,
      runQuadrant emptySweepEnv p sx sy 39 ⟨0, 0, 0, 0, rows⟩ = some s1 ∧
      s1.notHitRowCount = 3 ∧ s1.rows = rows) ∧
    DivideSceneViaBoxTrace emptySweepEnv p 39 = some (initRows p) := by
  refine ⟨fun sx sy rows => ?_, divideScene_emptySweepEnv_eq p⟩
  exact runQuadrant_emptySweepEnv_breaks p sx sy 39 0 0 0 0 rows
    (by omega) (by omega) (by omega)

/-- C9: in every sweep step where (box-sweep hit OR inside-probe
succeeded) AND the point is within the rectangular border, exactly one
cell row is appended to the output — its actor name and location taken
from the selected hit, its recorded z equal to the hit location's Z
minus `BoxHalfSize`, its visible flag from the visibility probe — both
the not-hit counter and the not-hit-row counter are reset to 0 and the
row index j is incremented; and every output of `DivideSceneViaBoxTrace`
begins with the header row `actor_name,x,y,z,materials,visible` followed
by the two sweep-metadata rows, all later rows being cell rows. -/
theorem sweepStep_record_and_output_shape :
    (∀ (env : SweepEnv) (p : SweepParams) (sx sy : Int) (s : QState),
      ((env.sweep (p.origin.x + p.deltaStep * (s.i : ℚ) * (sx : ℚ))
          (p.origin.y + p.deltaStep * (s.j : ℚ) * (sy : ℚ))).isSome
        || (env.inside (p.origin.x + p.deltaStep * (s.i : ℚ) * (sx : ℚ))
          (p.origin.y + p.deltaStep * (s.j : ℚ) * (sy : ℚ))).isSome) = true →
      (decide (p.minX < p.origin.x + p.deltaStep * (s.i : ℚ) * (sx : ℚ))
        && decide (p.origin.x + p.deltaStep * (s.i : ℚ) * (sx : ℚ) < p.maxX)
        && decide (p.minY < p.origin.y + p.deltaStep * (s.j : ℚ) * (sy : ℚ))
        && decide (p.origin.y + p.deltaStep * (s.j : ℚ) * (sy : ℚ) < p.maxY))
        = true →
      sweepStep env p sx sy s = StepRes.next ⟨s.i, s.j + 1, 0, 0, s.rows ++
        [Row.cell ⟨(selectedHit env (p.origin.x + p.deltaStep * (s.i : ℚ) * (sx : ℚ))
            (p.origin.y + p.deltaStep * (s.j : ℚ) * (sy : ℚ))).actorName,
          (selectedHit env (p.origin.x + p.deltaStep * (s.i : ℚ) * (sx : ℚ))
            (p.origin.y + p.deltaStep * (s.j : ℚ) * (sy : ℚ))).location.x,
          (selectedHit env (p.origin.x + p.deltaStep * (s.i : ℚ) * (sx : ℚ))
            (p.origin.y + p.deltaStep * (s.j : ℚ) * (sy : ℚ))).location.y,
          (selectedHit env (p.origin.x + p.deltaStep * (s.i : ℚ) * (sx : ℚ))
            (p.origin.y + p.deltaStep * (s.j : ℚ) * (sy : ℚ))).location.z
              - (p.boxHalfSize : ℚ),
          "",
          env.visible (p.origin.x + p.deltaStep * (s.i : ℚ) * (sx : ℚ))
            (p.origin.y + p.deltaStep * (s.j : ℚ) * (sy : ℚ))⟩]⟩) ∧
    (∀ (env : SweepEnv) (p : SweepParams) (fuel : Nat) (out : List Row),
      DivideSceneViaBoxTrace env p fuel = some out →
      ∃ cells, out = Row.header :: Row.metaNames ::
          Row.metaValues p.boxHalfSize p.deltaStep p.origin.x p.origin.y
            p.origin.z p.hitEndZ :: cells
        ∧ ∀ r ∈ cells, ∃ cd, r = Row.cell cd) := by
  constructor
  · intro env p sx sy s hHit hBorder
    simp only [sweepStep, hHit, hBorder, Bool.and_self, if_true]
  · intro env p fuel out h
    rcases e1 : runQuadrant env p 1 1 fuel ⟨0, 0, 0, 0, initRows p⟩ with _ | s1
    · simp [DivideSceneViaBoxTrace, e1] at h
    rcases e2 : runQuadrant env p 1 (-1) fuel ⟨0, 0, 0, 0, s1.rows⟩ with _ | s2
    · simp [DivideSceneViaBoxTrace, e1, e2] at h
    rcases e3 : runQuadrant env p (-1) 1 fuel ⟨0, 0, 0, 0, s2.rows⟩ with _ | s3
    · simp [DivideSceneViaBoxTrace, e1, e2, e3] at h
    rcases e4 : runQuadrant env p (-1) (-1) fuel ⟨0, 0, 0, 0, s3.rows⟩ with _ | s4
    · simp [DivideSceneViaBoxTrace, e1, e2, e3, e4] at h
    have hout : out = s4.rows := by
      simp [DivideSceneViaBoxTrace, e1, e2, e3, e4] at h
      exact h.symm
    have hc1 : ∃ c, s1.rows = initRows p ++ c ∧ ∀ r ∈ c, ∃ cd, r = Row.cell cd :=
      runQuadrant_rows_extend env p 1 1 fuel _ _ e1
    have hc2 : ∃ c, s2.rows = s1.rows ++ c ∧ ∀ r ∈ c, ∃ cd, r = Row.cell cd :=
      runQuadrant_rows_extend env p 1 (-1) fuel ⟨0, 0, 0, 0, s1.rows⟩ s2 e2
    have hc3 : ∃ c, s3.rows = s2.rows ++ c ∧ ∀ r ∈ c, ∃ cd, r = Row.cell cd :=
      runQuadrant_rows_extend env p (-1) 1 fuel ⟨0, 0, 0, 0, s2.rows⟩ s3 e3
    have hc4 : ∃ c, s4.rows = s3.rows ++ c ∧ ∀ r ∈ c, ∃ cd, r = Row.cell cd :=
      runQuadrant_rows_extend env p (-1) (-1) fuel ⟨0, 0, 0, 0, s3.rows⟩ s4 e4
    obtain ⟨c1, hr1, hm1⟩ := hc1
    obtain ⟨c2, hr2, hm2⟩ := hc2
    obtain ⟨c3, hr3, hm3⟩ := hc3
    obtain ⟨c4, hr4, hm4⟩ := hc4
    refine ⟨c1 ++ c2 ++ c3 ++ c4, ?_, ?_⟩
    · rw [hout, hr4, hr3, hr2, hr1]
      simp [initRows]
    · intro r hr
      rcases (by simpa using hr :
          r ∈ c1 ∨ r ∈ c2 ∨ r ∈ c3 ∨ r ∈ c4) with h | h | h | h
      exacts [hm1 r h, hm2 r h, hm3 r h, hm4 r h]

/-- Witness for C9: a step over a flat-floor scene with the default
border records exactly one cell row with z = 0 - 20 and resets both
counters; and the empty-scene sweep output consists of the three header
rows followed by (zero) cell rows. -/
theorem sweepStep_record_and_output_shape_witness :
    sweepStep floorHitEnv borderedParams 1 1 ⟨0, 0, 0, 0, []⟩
      = StepRes.next ⟨0, 1, 0, 0, [Row.cell ⟨"floor", 0, 0, -20, "", true⟩]⟩ ∧
    (∃ cells, initRows emptyBorderParams = Row.header :: Row.metaNames ::
        Row.metaValues emptyBorderParams.boxHalfSize emptyBorderParams.deltaStep
          emptyBorderParams.origin.x emptyBorderParams.origin.y
          emptyBorderParams.origin.z emptyBorderParams.hitEndZ :: cells
      ∧ ∀ r ∈ cells, ∃ cd, r = Row.cell cd) := by
  constructor
  · have h := sweepStep_record_and_output_shape.1 floorHitEnv borderedParams 1 1
      ⟨0, 0, 0, 0, []⟩ (by simp [floorHitEnv])
      (by norm_num [borderedParams, SweepParams.minX, SweepParams.maxX,
        SweepParams.minY, SweepParams.maxY, SweepParams.deltaStep])
    rw [h]
    norm_num [selectedHit, floorHitEnv, borderedParams]
  · exact sweepStep_record_and_output_shape.2 emptySweepEnv emptyBorderParams 39
      (initRows emptyBorderParams) (divideScene_emptySweepEnv_eq emptyBorderParams)

end XRFeitoria
